import Mathlib

/-!
Verification of the balena-supervisor authorization core: a shallow embedding
of the scope model and key issuance service (src/lib/api-keys, given as
src/unnamed/part_000), the request validation middleware
(src/src/device-api/middleware/validation.ts) and the basic io-ts codecs
(src/src/types/basic.ts), together with theorems settling the frozen claims
about them.
-/

set_option autoImplicit false

namespace Supervisor

/-! ## JSON-like values

JavaScript values flowing through the request pipeline (request bodies,
query strings, route params, decoded results).  Numbers are modelled as
integers: every numeric check in the embedded code either compares with
`parseInt` (so only integral values survive decoding) or compares with the
constants 0 and 1. -/

inductive Value where
  | null
  | undefined
  | bool (b : Bool)
  | num (n : Int)
  | str (s : String)
  | arr (elems : List Value)
  | obj (fields : List (String × Value))

/-- JavaScript truthiness of a value (`undefined`, `null`, `false`, `0` and
the empty string are falsy; objects and arrays are truthy). -/
def jsTruthy : Value → Bool
  | .null => false
  | .undefined => false
  | .bool b => b
  | .num n => n != 0
  | .str s => s ≠ ""
  | .arr _ => true
  | .obj _ => true

/-- Property read `o[k]` on an object field list: the first binding wins,
a missing property reads as `undefined`. -/
def objGet (fields : List (String × Value)) (k : String) : Value :=
  match fields.find? (fun p => p.1 = k) with
  | some p => p.2
  | none => .undefined

/-- Property write `o[k] = v`: replaces the binding if present, appends it
otherwise. -/
def objSet (fields : List (String × Value)) (k : String) (v : Value) :
    List (String × Value) :=
  if fields.any (fun p => p.1 = k) then
    fields.map (fun p => if p.1 = k then (k, v) else p)
  else
    fields ++ [(k, v)]

/-! ## Scope model (src/unnamed/part_000, `api-keys`) -/

/-- `Scope`: tagged variant over the `ScopeTypes` keys `global` and `app`
(`{type: 'global'}` or `{type: 'app', appId}`). -/
inductive Scope where
  | global
  | app (appId : Int)
deriving DecidableEq, Repr

/-- `ScopedResources`: the resources which can be protected with scopes.
The source takes a `Partial<ScopedResources>`, so the `apps` list may be
absent (`none`). -/
structure ScopedResources where
  apps : Option (List Int)
deriving DecidableEq, Repr

/-- `scopeChecks`: the per-variant checks, written in the source as a map
keyed by scope kind —
`global: () => true` and
`app: (resources, { appId }) => resources.apps != null && resources.apps.includes(appId)`. -/
def scopeCheck (resources : ScopedResources) : Scope → Bool
  | .global => true
  | .app appId =>
    match resources.apps with
    | some apps => apps.contains appId
    | none => false

/-- `isScoped = (resources, scopes) => scopes.some((scope) => scopeChecks[scope.type](resources, scope))`. -/
def isScoped (resources : ScopedResources) (scopes : List Scope) : Bool :=
  scopes.any (scopeCheck resources)

/-- `isEqualScope(a, b) = _.isEqual(a, b)`: structural equality of scopes. -/
def isEqualScope (a b : Scope) : Bool := a = b

/-- The claim's wording of when a single scope satisfies a requested
resource set: `Global` always satisfies, `App{a}` satisfies iff the
requested set lists applications and `a` is among them.  Stated from the
spec, to be compared against `isScoped` from the source. -/
def scopeSatisfiesSpec : Scope → ScopedResources → Prop
  | .global, _ => True
  | .app a, r => ∃ l, r.apps = some l ∧ a ∈ l

/-- C3: For every scope list S and every resource set R, `isScoped R S`
returns true iff at least one scope in S individually satisfies R: a
`global` scope always satisfies, and an `app` scope with `appId = a`
satisfies iff `R.apps` is present and `a` is a member of it (logical OR
across the list, never AND). -/
theorem isScoped_iff_some_scope_satisfies
    (r : ScopedResources) (s : List Scope) :
    isScoped r s = true ↔ ∃ sc ∈ s, scopeSatisfiesSpec sc r := by
  unfold isScoped
  rw [List.any_eq_true]
  constructor
  · rintro ⟨sc, hmem, hcheck⟩
    refine ⟨sc, hmem, ?_⟩
    cases sc with
    | global => trivial
    | app a =>
      unfold scopeCheck at hcheck
      cases happs : r.apps with
      | none => rw [happs] at hcheck; exact absurd hcheck (by simp)
      | some l =>
        rw [happs] at hcheck
        exact ⟨l, happs, by simpa using hcheck⟩
  · rintro ⟨sc, hmem, hsat⟩
    refine ⟨sc, hmem, ?_⟩
    cases sc with
    | global => rfl
    | app a =>
      obtain ⟨l, hl, hal⟩ := hsat
      unfold scopeCheck
      rw [hl]
      simpa using hal

/-! ## Key store, key cache and key issuance (src/unnamed/part_000)

The durable row store behind `db.models('apiSecret')` and the RNG behind
`generateUniqueKey` are external collaborators of this module (the `db` and
`register-device` modules are not part of the extracted source).  Both are
modelled from the spec: the Key Store Adapter of §6 is a list of rows
queried and deleted by exact field match and inserted by appending, and the
RNG collaborator of §6 ("`newSecret() -> string`, guaranteed unique") is a
counter supplying one fresh opaque secret after another.  Secrets are
opaque unique tokens, modelled as naturals. -/

/-- Opaque unique secret token (the `key` strings of the source). -/
abbrev Secret := Nat

/-- Scope-list serialization: `serialiseScopes`/`deserialiseScopes` are
`JSON.stringify`/`JSON.parse` in the source; per spec §6 the flat tagged
list round-trips exactly, so the serialized form is modelled by the scope
list itself. -/
abbrev SerialisedScopes := List Scope

/-- `serialiseScopes(scopes) = JSON.stringify(scopes)`. -/
def serialiseScopes (scopes : List Scope) : SerialisedScopes := scopes

/-- `deserialiseScopes(json) = JSON.parse(json)`. -/
def deserialiseScopes (json : SerialisedScopes) : List Scope := json

/-- A row of the `apiSecret` table (interface `DbApiSecret`; the numeric
`id` column is never read by this module and is omitted). -/
structure DbApiSecret where
  appId : Int
  serviceName : Option String
  scopes : SerialisedScopes
  key : Secret
deriving DecidableEq, Repr

/-- The memoizee normalizer of `getApiKeyForService`:
`([appId, serviceName]) => ` the template string `appId-serviceName`
(JavaScript renders a `null` service name as `"null"`). -/
def svcCacheKey (appId : Int) (serviceName : Option String) : String :=
  toString appId ++ "-" ++ (match serviceName with | some s => s | none => "null")

/-- Process state of the key subsystem: the durable rows, the two memoizee
caches (by (owner, service) normalizer string, and by secret), the RNG
counter, and — as specification history only — the list of every secret
`createNewKey` has ever returned. -/
structure KeyState where
  db : List DbApiSecret
  svcCache : List (String × List DbApiSecret)
  keyCache : List (Secret × Option DbApiSecret)
  nextSecret : Nat
  issued : List Secret
deriving DecidableEq, Repr

/-- First value bound to `k` in an association list, if any. -/
def assocLookup {α β : Type} [DecidableEq α] (l : List (α × β)) (k : α) :
    Option β :=
  match l.find? (fun p => p.1 = k) with
  | some p => some p.2
  | none => none

/-- `db.models('apiSecret').where({ appId, serviceName }).select()`:
the rows matching both fields, in insertion order. -/
def dbRowsFor (db : List DbApiSecret) (appId : Int)
    (serviceName : Option String) : List DbApiSecret :=
  db.filter (fun r => r.appId = appId ∧ r.serviceName = serviceName)

/-- `getApiKeyForService(appId, serviceName)`: memoized lookup of the rows
for an (owner, service) pair — on a cache hit return the cached rows, on a
miss query the store and populate the cache (the 60-second TTL only evicts
entries early, which under-approximates to never expiring here). -/
def getApiKeyForService (appId : Int) (serviceName : Option String)
    (σ : KeyState) : List DbApiSecret × KeyState :=
  match assocLookup σ.svcCache (svcCacheKey appId serviceName) with
  | some rows => (rows, σ)
  | none =>
    let rows := dbRowsFor σ.db appId serviceName
    (rows, { σ with svcCache := (svcCacheKey appId serviceName, rows) :: σ.svcCache })

/-- `getApiKeyByKey(key)`: memoized lookup of the first row whose `key`
column equals the secret (`const [apiKey] = await ...where({ key }).select()`);
the memoizee cache also stores an absent result. -/
def getApiKeyByKey (key : Secret) (σ : KeyState) :
    Option DbApiSecret × KeyState :=
  match assocLookup σ.keyCache key with
  | some v => (v, σ)
  | none =>
    let v := (σ.db.filter (fun r => r.key = key)).head?
    (v, { σ with keyCache := (key, v) :: σ.keyCache })

/-- `getScopesForKey(key)`: `null` when the key is unknown, otherwise the
deserialised scope list of its row. -/
def getScopesForKey (key : Secret) (σ : KeyState) :
    Option (List Scope) × KeyState :=
  let r := getApiKeyByKey key σ
  match r.1 with
  | none => (none, r.2)
  | some apiKey => (some (deserialiseScopes apiKey.scopes), r.2)

/-- `createNewKey(appId, serviceName, scopes)`: draw a fresh secret from
the RNG collaborator (`generateUniqueKey()`, modelled from the spec as the
counter), insert the new row, and return the secret. -/
def createNewKey (appId : Int) (serviceName : Option String)
    (scopes : List Scope) (σ : KeyState) : Secret × KeyState :=
  let key := σ.nextSecret
  (key,
    { σ with
      db := σ.db ++ [{ appId := appId, serviceName := serviceName,
                       key := key, scopes := serialiseScopes scopes }]
      nextSecret := σ.nextSecret + 1
      issued := σ.issued ++ [key] })

/-- `GenerateKeyOptions` as received by `generateKey`
(`Partial<GenerateKeyOptions>`, both fields possibly absent). -/
structure GenerateKeyOptions where
  force : Option Bool := none
  scopes : Option (List Scope) := none
deriving DecidableEq, Repr

/-- The fresh-key branch of `generateKey` (taken when no row exists or
`force` is set): if `force`, delete the pair's rows from the store; clear
the by-secret cache entry of the previously fetched row, if any
(`const [apiKey] = secrets`); clear the by-(owner,service) cache entry;
then create and return a new key. -/
def freshKeyPath (appId : Int) (serviceName : Option String)
    (scopes : List Scope) (force : Bool) (apiKey : Option DbApiSecret)
    (σ : KeyState) : Secret × KeyState :=
  let delRows (db : List DbApiSecret) : List DbApiSecret :=
    db.filter (fun r => ¬(r.appId = appId ∧ r.serviceName = serviceName))
  let σ1 := if force then { σ with db := delRows σ.db } else σ
  let σ2 := match apiKey with
    | some k => { σ1 with keyCache := σ1.keyCache.filter (fun e => e.1 ≠ k.key) }
    | none => σ1
  let σ3 := { σ2 with svcCache :=
      σ2.svcCache.filter (fun e => e.1 ≠ svcCacheKey appId serviceName) }
  createNewKey appId serviceName scopes σ3

/-- `generateKey(appId, serviceName, options)`: resolve the option defaults
(`force = false`, `scopes = [{type:'app', appId}]`), fetch the pair's rows
through the cache, and then either hand over to the fresh-key branch
(no row, or `force`), reuse the existing secret when the desired scopes
match the stored ones by length plus structural membership, or re-invoke
itself with `force: true` on scope drift. -/
def generateKey (appId : Int) (serviceName : Option String)
    (options : GenerateKeyOptions) (σ : KeyState) : Secret × KeyState :=
  let scopes := options.scopes.getD [Scope.app appId]
  let fetched := getApiKeyForService appId serviceName σ
  let secrets := fetched.1
  let σa := fetched.2
  if _hf : options.force.getD false then
    freshKeyPath appId serviceName scopes true secrets.head? σa
  else
    match secrets with
    | [] => freshKeyPath appId serviceName scopes false none σa
    | currentSecret :: _ =>
      let currentScopes := deserialiseScopes currentSecret.scopes
      let scopesWeAlreadyHave :=
        scopes.filter (fun d => currentScopes.any (fun c => isEqualScope d c))
      if scopes.length = currentScopes.length ∧
          scopesWeAlreadyHave.length = currentScopes.length then
        (currentSecret.key, σa)
      else
        generateKey appId serviceName { options with force := some true } σa
termination_by (if options.force.getD false then 1 else 2)
decreasing_by simp_all

/-! ### Helper lemmas about the key subsystem -/

/-- Cache accuracy at one (owner, service) pair: if the by-service cache
holds an entry under this pair's normalizer string, it holds exactly the
store's current rows for the pair.  This is the state in which the cache
behaves as the read-through overlay of spec §4.2. -/
def svcAccurate (σ : KeyState) (appId : Int) (sn : Option String) : Prop :=
  ∀ rows, assocLookup σ.svcCache (svcCacheKey appId sn) = some rows →
    rows = dbRowsFor σ.db appId sn

theorem assocLookup_cons_self {α β : Type} [DecidableEq α]
    (k : α) (v : β) (l : List (α × β)) :
    assocLookup ((k, v) :: l) k = some v := by
  simp [assocLookup]

theorem assocLookup_filter_ne {α β : Type} [DecidableEq α]
    (l : List (α × β)) (k : α) (p : α × β → Bool)
    (hp : ∀ e, p e = true → e.1 ≠ k) :
    assocLookup (l.filter p) k = none := by
  induction l with
  | nil => rfl
  | cons q t ih =>
    by_cases h : p q = true
    · have hq := hp q h
      simpa [List.filter_cons, h, assocLookup, List.find?_cons, hq] using ih
    · simpa [List.filter_cons, h] using ih

theorem getApiKeyForService_spec (a : Int) (sn : Option String) (σ : KeyState)
    (hacc : svcAccurate σ a sn) :
    (getApiKeyForService a sn σ).1 = dbRowsFor σ.db a sn ∧
    (getApiKeyForService a sn σ).2.db = σ.db ∧
    (getApiKeyForService a sn σ).2.keyCache = σ.keyCache ∧
    (getApiKeyForService a sn σ).2.nextSecret = σ.nextSecret ∧
    (getApiKeyForService a sn σ).2.issued = σ.issued ∧
    assocLookup (getApiKeyForService a sn σ).2.svcCache (svcCacheKey a sn) =
      some (dbRowsFor σ.db a sn) := by
  unfold getApiKeyForService
  cases h : assocLookup σ.svcCache (svcCacheKey a sn) with
  | none => simp [assocLookup_cons_self]
  | some rows =>
    have hr := hacc rows h
    simp [h, hr]

theorem freshKeyPath_spec (a : Int) (sn : Option String) (s : List Scope)
    (force : Bool) (apiKey : Option DbApiSecret) (σ : KeyState) :
    (freshKeyPath a sn s force apiKey σ).1 = σ.nextSecret ∧
    (freshKeyPath a sn s force apiKey σ).2.db =
      (if force then
        σ.db.filter (fun r => ¬(r.appId = a ∧ r.serviceName = sn))
       else σ.db) ++
      [{ appId := a, serviceName := sn, scopes := serialiseScopes s,
         key := σ.nextSecret }] ∧
    assocLookup (freshKeyPath a sn s force apiKey σ).2.svcCache
      (svcCacheKey a sn) = none ∧
    (freshKeyPath a sn s force apiKey σ).2.keyCache =
      (match apiKey with
       | some k => σ.keyCache.filter (fun e => e.1 ≠ k.key)
       | none => σ.keyCache) ∧
    (freshKeyPath a sn s force apiKey σ).2.nextSecret = σ.nextSecret + 1 ∧
    (freshKeyPath a sn s force apiKey σ).2.issued =
      σ.issued ++ [σ.nextSecret] := by
  have hsvc : ∀ (l : List (String × List DbApiSecret)),
      assocLookup (l.filter (fun e => !decide (e.1 = svcCacheKey a sn)))
        (svcCacheKey a sn) = none := by
    intro l
    refine assocLookup_filter_ne l _ _ ?_
    intro e he
    simpa using he
  cases apiKey with
  | none =>
    cases force <;>
      simp [freshKeyPath, createNewKey, hsvc]
  | some k =>
    cases force <;>
      simp [freshKeyPath, createNewKey, hsvc]

/-- Reuse branch of `generateKey` (`force: false`, a row exists, the
desired scopes pass the stored-scope comparison): the stored secret is
returned and the store is untouched. -/
theorem generateKey_reuse (a : Int) (sn : Option String) (s : List Scope)
    (σ : KeyState) (cur : DbApiSecret) (rest : List DbApiSecret)
    (hacc : svcAccurate σ a sn)
    (hrows : dbRowsFor σ.db a sn = cur :: rest)
    (hlen : s.length = (deserialiseScopes cur.scopes).length)
    (hsub : (s.filter (fun d => (deserialiseScopes cur.scopes).any
        (fun c => isEqualScope d c))).length =
        (deserialiseScopes cur.scopes).length) :
    (generateKey a sn ⟨some false, some s⟩ σ).1 = cur.key ∧
    (generateKey a sn ⟨some false, some s⟩ σ).2.db = σ.db ∧
    (generateKey a sn ⟨some false, some s⟩ σ).2.issued = σ.issued ∧
    (generateKey a sn ⟨some false, some s⟩ σ).2.nextSecret = σ.nextSecret ∧
    assocLookup (generateKey a sn ⟨some false, some s⟩ σ).2.svcCache
      (svcCacheKey a sn) = some (cur :: rest) := by
  obtain ⟨h1, h2, h3, h4, h5, h6⟩ := getApiKeyForService_spec a sn σ hacc
  rw [generateKey]
  simp only [Option.getD_some, dite_false]
  rw [h1, hrows] at *
  simp [hlen, hsub, h2, h5, h4, h6, hrows]

theorem dbRowsFor_append (x y : List DbApiSecret) (a : Int)
    (sn : Option String) :
    dbRowsFor (x ++ y) a sn = dbRowsFor x a sn ++ dbRowsFor y a sn := by
  simp [dbRowsFor, List.filter_append]

theorem dbRowsFor_delRows (db : List DbApiSecret) (a : Int)
    (sn : Option String) :
    dbRowsFor (db.filter (fun r => ¬(r.appId = a ∧ r.serviceName = sn)))
      a sn = [] := by
  unfold dbRowsFor
  rw [List.filter_eq_nil_iff]
  intro r hr
  have h2 := List.of_mem_filter hr
  simp at h2 ⊢
  tauto

theorem svcAccurate_of_lookup_none (σ : KeyState) (a : Int)
    (sn : Option String)
    (h : assocLookup σ.svcCache (svcCacheKey a sn) = none) :
    svcAccurate σ a sn := by
  intro rows hrows
  rw [h] at hrows
  exact absurd hrows (by simp)

theorem svcAccurate_of_lookup_rows (σ : KeyState) (a : Int)
    (sn : Option String) (rows : List DbApiSecret)
    (h : assocLookup σ.svcCache (svcCacheKey a sn) = some rows)
    (hr : rows = dbRowsFor σ.db a sn) :
    svcAccurate σ a sn := by
  intro rows' hrows'
  rw [h] at hrows'
  cases hrows'
  exact hr

/-- Every desired scope is structurally found in the desired list itself,
so the reuse comparison's filter keeps the whole list. -/
theorem scopes_filter_self (s : List Scope) :
    s.filter (fun d => s.any (fun c => isEqualScope d c)) = s := by
  apply List.filter_eq_self.mpr
  intro d hd
  simp only [List.any_eq_true]
  exact ⟨d, hd, by simp [isEqualScope]⟩

/-- Fresh branch of `generateKey` (`force: false`, no row for the pair):
a new secret is created and inserted, and the pair's cache entry is left
invalidated. -/
theorem generateKey_fresh (a : Int) (sn : Option String) (s : List Scope)
    (σ : KeyState) (hacc : svcAccurate σ a sn)
    (hrows : dbRowsFor σ.db a sn = []) :
    (generateKey a sn ⟨some false, some s⟩ σ).1 = σ.nextSecret ∧
    (generateKey a sn ⟨some false, some s⟩ σ).2.db =
      σ.db ++ [{ appId := a, serviceName := sn,
                 scopes := serialiseScopes s, key := σ.nextSecret }] ∧
    dbRowsFor (generateKey a sn ⟨some false, some s⟩ σ).2.db a sn =
      [{ appId := a, serviceName := sn,
         scopes := serialiseScopes s, key := σ.nextSecret }] ∧
    assocLookup (generateKey a sn ⟨some false, some s⟩ σ).2.svcCache
      (svcCacheKey a sn) = none ∧
    (generateKey a sn ⟨some false, some s⟩ σ).2.keyCache = σ.keyCache ∧
    (generateKey a sn ⟨some false, some s⟩ σ).2.nextSecret =
      σ.nextSecret + 1 ∧
    (generateKey a sn ⟨some false, some s⟩ σ).2.issued =
      σ.issued ++ [σ.nextSecret] := by
  obtain ⟨h1, h2, h3, h4, h5, h6⟩ := getApiKeyForService_spec a sn σ hacc
  obtain ⟨f1, f2, f3, f4, f5, f6⟩ :=
    freshKeyPath_spec a sn s false none (getApiKeyForService a sn σ).2
  rw [generateKey]
  simp only [Option.getD_some, h1, hrows, Bool.false_eq_true, dite_false]
  simp only [ite_false, Bool.false_eq_true] at f2 f4
  refine ⟨by rw [f1, h4], ?_, ?_, f3, by rw [f4, h3], by rw [f5, h4], ?_⟩
  · rw [f2, h2, h4]
  · rw [f2, h2, h4, dbRowsFor_append, hrows]
    simp [dbRowsFor]
  · rw [f6, h5, h4]

/-- Rotation branch of `generateKey` (`force: false`, a row exists, the
scope comparison fails): the source re-invokes itself with `force: true`,
which deletes the pair's rows, invalidates both cache entries, and inserts
a fresh row. -/
theorem generateKey_rotate (a : Int) (sn : Option String) (s : List Scope)
    (σ : KeyState) (cur : DbApiSecret) (rest : List DbApiSecret)
    (hacc : svcAccurate σ a sn)
    (hrows : dbRowsFor σ.db a sn = cur :: rest)
    (hne : ¬(s.length = (deserialiseScopes cur.scopes).length ∧
        (s.filter (fun d => (deserialiseScopes cur.scopes).any
          (fun c => isEqualScope d c))).length =
          (deserialiseScopes cur.scopes).length)) :
    (generateKey a sn ⟨some false, some s⟩ σ).1 = σ.nextSecret ∧
    (generateKey a sn ⟨some false, some s⟩ σ).2.db =
      σ.db.filter (fun r => ¬(r.appId = a ∧ r.serviceName = sn)) ++
        [{ appId := a, serviceName := sn,
           scopes := serialiseScopes s, key := σ.nextSecret }] ∧
    dbRowsFor (generateKey a sn ⟨some false, some s⟩ σ).2.db a sn =
      [{ appId := a, serviceName := sn,
         scopes := serialiseScopes s, key := σ.nextSecret }] ∧
    assocLookup (generateKey a sn ⟨some false, some s⟩ σ).2.svcCache
      (svcCacheKey a sn) = none ∧
    (generateKey a sn ⟨some false, some s⟩ σ).2.keyCache =
      σ.keyCache.filter (fun e => e.1 ≠ cur.key) ∧
    (generateKey a sn ⟨some false, some s⟩ σ).2.nextSecret =
      σ.nextSecret + 1 ∧
    (generateKey a sn ⟨some false, some s⟩ σ).2.issued =
      σ.issued ++ [σ.nextSecret] := by
  obtain ⟨h1, h2, h3, h4, h5, h6⟩ := getApiKeyForService_spec a sn σ hacc
  have hacc2 : svcAccurate (getApiKeyForService a sn σ).2 a sn := by
    refine svcAccurate_of_lookup_rows _ a sn _ h6 ?_
    rw [h2]
  obtain ⟨g1, g2, g3, g4, g5, g6⟩ :=
    getApiKeyForService_spec a sn (getApiKeyForService a sn σ).2 hacc2
  obtain ⟨f1, f2, f3, f4, f5, f6⟩ :=
    freshKeyPath_spec a sn s true
      (some cur)
      (getApiKeyForService a sn (getApiKeyForService a sn σ).2).2
  rw [generateKey]
  simp only [Option.getD_some, h1, hrows, Bool.false_eq_true, dite_false]
  rw [if_neg hne]
  rw [generateKey]
  simp only [Option.getD_some, g1, h2, hrows, dite_true, List.head?_cons]
  simp only [ite_true] at f2
  refine ⟨?_, ?_, ?_, f3, ?_, ?_, ?_⟩
  · rw [f1, g4, h4]
  · rw [f2, g2, h2, g4, h4]
  · rw [f2, g2, h2, g4, h4]
    simp [dbRowsFor_append, dbRowsFor_delRows, dbRowsFor]
  · rw [f4, g3, h3]
  · rw [f5, g4, h4]
  · rw [f6, g5, h5, g4, h4]

/-- C4: For every ownerId, serviceName and desired scope list, calling key
issuance twice in succession with identical arguments and `force: false`
returns the identical secret both times: the second call finds that the
desired scopes equal the stored scopes (equal length and every desired
scope found among current scopes by structural equality) and returns the
existing secret as a no-op — its store contents and issuance history are
unchanged.  Stated over any state whose by-service cache entry for the
pair, if present, is accurate. -/
theorem generateKey_twice_idempotent (a : Int) (sn : Option String)
    (s : List Scope) (σ : KeyState) (hacc : svcAccurate σ a sn) :
    (generateKey a sn ⟨some false, some s⟩
        (generateKey a sn ⟨some false, some s⟩ σ).2).1 =
      (generateKey a sn ⟨some false, some s⟩ σ).1 ∧
    (generateKey a sn ⟨some false, some s⟩
        (generateKey a sn ⟨some false, some s⟩ σ).2).2.db =
      (generateKey a sn ⟨some false, some s⟩ σ).2.db ∧
    (generateKey a sn ⟨some false, some s⟩
        (generateKey a sn ⟨some false, some s⟩ σ).2).2.issued =
      (generateKey a sn ⟨some false, some s⟩ σ).2.issued := by
  have hsub' : (s.filter (fun d => s.any (fun c => isEqualScope d c))).length
      = s.length := by
    rw [scopes_filter_self]
  cases hrows : dbRowsFor σ.db a sn with
  | nil =>
    obtain ⟨e1, e2, e3, e4, e5, e6, e7⟩ := generateKey_fresh a sn s σ hacc hrows
    have hacc1 : svcAccurate (generateKey a sn ⟨some false, some s⟩ σ).2 a sn :=
      svcAccurate_of_lookup_none _ _ _ e4
    obtain ⟨q1, q2, q3, q4, q5⟩ :=
      generateKey_reuse a sn s (generateKey a sn ⟨some false, some s⟩ σ).2
        { appId := a, serviceName := sn, scopes := serialiseScopes s,
          key := σ.nextSecret } [] hacc1 e3 rfl hsub'
    exact ⟨by rw [q1, e1], q2, q3⟩
  | cons cur rest =>
    by_cases hm : s.length = (deserialiseScopes cur.scopes).length ∧
        (s.filter (fun d => (deserialiseScopes cur.scopes).any
          (fun c => isEqualScope d c))).length =
          (deserialiseScopes cur.scopes).length
    · obtain ⟨r1, r2, r3, r4, r5⟩ :=
        generateKey_reuse a sn s σ cur rest hacc hrows hm.1 hm.2
      have hacc1 : svcAccurate (generateKey a sn ⟨some false, some s⟩ σ).2 a sn :=
        svcAccurate_of_lookup_rows _ _ _ _ r5 (by rw [r2, hrows])
      obtain ⟨q1, q2, q3, q4, q5⟩ :=
        generateKey_reuse a sn s (generateKey a sn ⟨some false, some s⟩ σ).2
          cur rest hacc1 (by rw [r2, hrows]) hm.1 hm.2
      exact ⟨by rw [q1, r1], q2, q3⟩
    · obtain ⟨e1, e2, e3, e4, e5, e6, e7⟩ :=
        generateKey_rotate a sn s σ cur rest hacc hrows hm
      have hacc1 : svcAccurate (generateKey a sn ⟨some false, some s⟩ σ).2 a sn :=
        svcAccurate_of_lookup_none _ _ _ e4
      obtain ⟨q1, q2, q3, q4, q5⟩ :=
        generateKey_reuse a sn s (generateKey a sn ⟨some false, some s⟩ σ).2
          { appId := a, serviceName := sn, scopes := serialiseScopes s,
            key := σ.nextSecret } [] hacc1 e3 rfl hsub'
      exact ⟨by rw [q1, e1], q2, q3⟩

/-- Witness for C4 at a concrete input: owner 7, service `main`, desired
scopes `[App 7]`, starting from the empty state (whose cache is trivially
accurate). -/
theorem generateKey_twice_idempotent_witness :
    svcAccurate ⟨[], [], [], 0, []⟩ 7 (some "main") ∧
    ((generateKey 7 (some "main") ⟨some false, some [Scope.app 7]⟩
        (generateKey 7 (some "main") ⟨some false, some [Scope.app 7]⟩
          ⟨[], [], [], 0, []⟩).2).1 =
      (generateKey 7 (some "main") ⟨some false, some [Scope.app 7]⟩
        ⟨[], [], [], 0, []⟩).1 ∧
    (generateKey 7 (some "main") ⟨some false, some [Scope.app 7]⟩
        (generateKey 7 (some "main") ⟨some false, some [Scope.app 7]⟩
          ⟨[], [], [], 0, []⟩).2).2.db =
      (generateKey 7 (some "main") ⟨some false, some [Scope.app 7]⟩
        ⟨[], [], [], 0, []⟩).2.db ∧
    (generateKey 7 (some "main") ⟨some false, some [Scope.app 7]⟩
        (generateKey 7 (some "main") ⟨some false, some [Scope.app 7]⟩
          ⟨[], [], [], 0, []⟩).2).2.issued =
      (generateKey 7 (some "main") ⟨some false, some [Scope.app 7]⟩
        ⟨[], [], [], 0, []⟩).2.issued) :=
  ⟨fun rows h => by simp [assocLookup] at h,
   generateKey_twice_idempotent 7 (some "main") [Scope.app 7] ⟨[], [], [], 0, []⟩
     (fun rows h => by simp [assocLookup] at h)⟩

/-- Unfolding of `generateKey` with `force: true`: delete the pair's rows,
clear the fetched row's by-secret cache entry and the pair's by-service
entry, then insert a fresh row. -/
theorem generateKey_force_spec (a : Int) (sn : Option String)
    (s : List Scope) (σ : KeyState) (hacc : svcAccurate σ a sn) :
    (generateKey a sn ⟨some true, some s⟩ σ).1 = σ.nextSecret ∧
    (generateKey a sn ⟨some true, some s⟩ σ).2.db =
      σ.db.filter (fun r => ¬(r.appId = a ∧ r.serviceName = sn)) ++
        [{ appId := a, serviceName := sn,
           scopes := serialiseScopes s, key := σ.nextSecret }] ∧
    assocLookup (generateKey a sn ⟨some true, some s⟩ σ).2.svcCache
      (svcCacheKey a sn) = none ∧
    (generateKey a sn ⟨some true, some s⟩ σ).2.keyCache =
      (match (dbRowsFor σ.db a sn).head? with
       | some k => σ.keyCache.filter (fun e => e.1 ≠ k.key)
       | none => σ.keyCache) ∧
    (generateKey a sn ⟨some true, some s⟩ σ).2.nextSecret =
      σ.nextSecret + 1 ∧
    (generateKey a sn ⟨some true, some s⟩ σ).2.issued =
      σ.issued ++ [σ.nextSecret] := by
  obtain ⟨h1, h2, h3, h4, h5, h6⟩ := getApiKeyForService_spec a sn σ hacc
  obtain ⟨f1, f2, f3, f4, f5, f6⟩ :=
    freshKeyPath_spec a sn s true (dbRowsFor σ.db a sn).head?
      (getApiKeyForService a sn σ).2
  rw [generateKey]
  simp only [Option.getD_some, h1, dite_true]
  simp only [ite_true] at f2
  refine ⟨by rw [f1, h4], by rw [f2, h2, h4], f3, ?_, by rw [f5, h4], ?_⟩
  · rw [f4, h3]
  · rw [f6, h5, h4]

/-- C5: For every (ownerId, serviceName) pair with an existing row, key
issuance with `force: true` deletes the row, invalidates both cache
keyspaces (the by-service entry and the old secret's by-secret entry),
and returns a secret different from every secret previously issued and in
particular from the prior one; afterwards `getScopesForKey` on the prior
secret returns absent.  Stated over any state whose pair cache entry, if
present, is accurate, whose row for the pair is unique, with unique key,
and whose keys so far all come from the RNG counter's past. -/
theorem generateKey_force_rotates (a : Int) (sn : Option String)
    (s : List Scope) (σ : KeyState) (row : DbApiSecret)
    (hacc : svcAccurate σ a sn)
    (hrow : dbRowsFor σ.db a sn = [row])
    (hkey : σ.db.filter (fun r => r.key = row.key) = [row])
    (hissued : ∀ x ∈ σ.issued, x < σ.nextSecret)
    (hdbcov : ∀ r ∈ σ.db, r.key < σ.nextSecret) :
    (generateKey a sn ⟨some true, some s⟩ σ).1 ∉ σ.issued ∧
    (generateKey a sn ⟨some true, some s⟩ σ).1 ≠ row.key ∧
    row ∉ (generateKey a sn ⟨some true, some s⟩ σ).2.db ∧
    assocLookup (generateKey a sn ⟨some true, some s⟩ σ).2.svcCache
      (svcCacheKey a sn) = none ∧
    assocLookup (generateKey a sn ⟨some true, some s⟩ σ).2.keyCache
      row.key = none ∧
    (getScopesForKey row.key
      (generateKey a sn ⟨some true, some s⟩ σ).2).1 = none := by
  obtain ⟨e1, e2, e3, e4, e5, e6⟩ := generateKey_force_spec a sn s σ hacc
  have hrowmem : row ∈ σ.db ∧ row.appId = a ∧ row.serviceName = sn := by
    have hm : row ∈ dbRowsFor σ.db a sn := by
      rw [hrow]; exact List.mem_cons_self _ _
    have h1 := List.mem_of_mem_filter hm
    have h2 := List.of_mem_filter hm
    simp at h2
    exact ⟨h1, h2.1, h2.2⟩
  have hrowlt : row.key < σ.nextSecret := hdbcov row hrowmem.1
  have hkeyne : σ.nextSecret ≠ row.key := Nat.ne_of_gt hrowlt
  have hnotiss : σ.nextSecret ∉ σ.issued := by
    intro hmem
    exact Nat.lt_irrefl _ (hissued _ hmem)
  have hkc : (generateKey a sn ⟨some true, some s⟩ σ).2.keyCache =
      σ.keyCache.filter (fun e => e.1 ≠ row.key) := by
    rw [e4, hrow]
    rfl
  have hkclookup : assocLookup
      (generateKey a sn ⟨some true, some s⟩ σ).2.keyCache row.key = none := by
    rw [hkc]
    refine assocLookup_filter_ne _ _ _ ?_
    intro e he
    simpa using he
  have hnewkeys : ∀ r' ∈ (generateKey a sn ⟨some true, some s⟩ σ).2.db,
      r'.key = row.key → False := by
    intro r' hr' heq
    rw [e2] at hr'
    rcases List.mem_append.mp hr' with hL | hR
    · have hmem := List.mem_of_mem_filter hL
      have hpred := List.of_mem_filter hL
      have hfilt : r' ∈ σ.db.filter (fun r => r.key = row.key) :=
        List.mem_filter.mpr ⟨hmem, by simpa using heq⟩
      rw [hkey] at hfilt
      have hr'' : r' = row := by simpa using hfilt
      subst hr''
      simp [hrowmem.2.1, hrowmem.2.2] at hpred
    · have hr'' : r' =
          (⟨a, sn, serialiseScopes s, σ.nextSecret⟩ : DbApiSecret) := by
        simpa using hR
      subst hr''
      exact hkeyne heq
  refine ⟨?_, ?_, ?_, e3, hkclookup, ?_⟩
  · rw [e1]; exact hnotiss
  · rw [e1]; exact hkeyne
  · intro hmem
    exact hnewkeys row hmem rfl
  · have hfilt : (generateKey a sn ⟨some true, some s⟩ σ).2.db.filter
        (fun r => r.key = row.key) = [] := by
      refine List.filter_eq_nil_iff.mpr ?_
      intro r' hr' hp
      exact hnewkeys r' hr' (by simpa using hp)
    simp [getScopesForKey, getApiKeyByKey, hkclookup, hfilt]

/-- Concrete pre-state for the C5 witness: one row for owner 7, service
`main` with secret 0 and scopes `[App 7]`; empty caches; RNG counter at 1;
secret 0 recorded as previously issued. -/
def rotateWitnessState : KeyState :=
  ⟨[⟨7, some "main", [Scope.app 7], 0⟩], [], [], 1, [0]⟩

/-- Witness for C5 at a concrete input: rotating the (7, "main") key with
`force: true` and desired scopes `[Global]`. -/
theorem generateKey_force_rotates_witness :
    (dbRowsFor rotateWitnessState.db 7 (some "main") =
      [⟨7, some "main", [Scope.app 7], 0⟩]) ∧
    (rotateWitnessState.db.filter
      (fun r => r.key = (⟨7, some "main", [Scope.app 7], 0⟩ : DbApiSecret).key) =
      [⟨7, some "main", [Scope.app 7], 0⟩]) ∧
    (∀ x ∈ rotateWitnessState.issued, x < rotateWitnessState.nextSecret) ∧
    (∀ r ∈ rotateWitnessState.db, r.key < rotateWitnessState.nextSecret) ∧
    ((generateKey 7 (some "main") ⟨some true, some [Scope.global]⟩
        rotateWitnessState).1 ∉ rotateWitnessState.issued ∧
     (generateKey 7 (some "main") ⟨some true, some [Scope.global]⟩
        rotateWitnessState).1 ≠
       (⟨7, some "main", [Scope.app 7], 0⟩ : DbApiSecret).key ∧
     (⟨7, some "main", [Scope.app 7], 0⟩ : DbApiSecret) ∉
       (generateKey 7 (some "main") ⟨some true, some [Scope.global]⟩
          rotateWitnessState).2.db ∧
     assocLookup (generateKey 7 (some "main")
        ⟨some true, some [Scope.global]⟩ rotateWitnessState).2.svcCache
        (svcCacheKey 7 (some "main")) = none ∧
     assocLookup (generateKey 7 (some "main")
        ⟨some true, some [Scope.global]⟩ rotateWitnessState).2.keyCache
        (⟨7, some "main", [Scope.app 7], 0⟩ : DbApiSecret).key = none ∧
     (getScopesForKey (⟨7, some "main", [Scope.app 7], 0⟩ : DbApiSecret).key
        (generateKey 7 (some "main") ⟨some true, some [Scope.global]⟩
          rotateWitnessState).2).1 = none) :=
  ⟨by decide, by decide, by decide, by decide,
   generateKey_force_rotates 7 (some "main") [Scope.global]
     rotateWitnessState ⟨7, some "main", [Scope.app 7], 0⟩
     (fun rows h => by simp [rotateWitnessState, assocLookup] at h)
     (by decide) (by decide) (by decide) (by decide)⟩

/-! ## io-ts codecs over values (src/src/types/basic.ts and io-ts built-ins)

A decoder is a function from a raw value to a decode result: `ok` with the
decoded value, or `err` with the list of the validation errors' `message`
fields (io-ts base-type failures carry no message, modelled as `none`). -/

inductive DecodeResult where
  | ok (v : Value)
  | err (msgs : List (Option String))

/-- `t.undefined`. -/
def tUndefined : Value → DecodeResult
  | .undefined => .ok .undefined
  | _ => .err [none]

/-- `t.null`. -/
def tNull : Value → DecodeResult
  | .null => .ok .null
  | _ => .err [none]

/-- `t.string`. -/
def tString : Value → DecodeResult
  | .str s => .ok (.str s)
  | _ => .err [none]

/-- `t.boolean`. -/
def tBoolean : Value → DecodeResult
  | .bool b => .ok (.bool b)
  | _ => .err [none]

/-- `t.number`. -/
def tNumber : Value → DecodeResult
  | .num n => .ok (.num n)
  | _ => .err [none]

/-- `t.union([a, b])`: first branch to succeed wins; when both fail the
errors of both branches are collected. -/
def tUnion (a b : Value → DecodeResult) : Value → DecodeResult := fun v =>
  match a v with
  | .ok x => .ok x
  | .err e1 =>
    match b v with
    | .ok y => .ok y
    | .err e2 => .err (e1 ++ e2)

/-- `NullOrUndefined = t.union([t.undefined, t.null])`. -/
def NullOrUndefined : Value → DecodeResult := tUnion tUndefined tNull

/-- `isNullOrUndefined = (val) => isRight(NullOrUndefined.decode(val))`. -/
def isNullOrUndefined (v : Value) : Bool :=
  match NullOrUndefined v with
  | .ok _ => true
  | .err _ => false

/-- `withDefault(type, defaultValue, shouldDefault = isNullOrUndefined)`:
a type whose validation replaces the raw value by the default exactly when
the predicate matches it, then decodes. -/
def withDefault (ty : Value → DecodeResult) (defaultValue : Value)
    (shouldDefault : Value → Bool := isNullOrUndefined) :
    Value → DecodeResult :=
  fun v => ty (if shouldDefault v then defaultValue else v)

/-- JavaScript whitespace skipped by numeric coercion. -/
def isJsSpace (c : Char) : Bool :=
  c = ' ' ∨ c = '\t' ∨ c = '\n' ∨ c = '\r'

/-- Trimmed character list of a string. -/
def jsTrim (s : String) : List Char :=
  ((s.toList.dropWhile isJsSpace).reverse.dropWhile isJsSpace).reverse

/-- Numeric value of a digit run. -/
def digitsToNat (ds : List Char) : Nat :=
  ds.foldl (fun a c => a * 10 + (c.toNat - 48)) 0

/-- Models the combined JavaScript test
`!isNaN(+s) && +s === parseInt(s, 10)` on a string, returning the common
integer value when the test passes.  The test passes exactly on strings
that trim to an optional sign followed by digits, optionally followed by a
decimal point and zeros (there unary plus and `parseInt` agree); on every
other string either `+s` is NaN or the two coercions disagree. -/
def jsIntString (s : String) : Option Int :=
  match jsTrim s with
  | [] => none
  | c0 :: cs0 =>
    let signAndDigits : Int × List Char :=
      match c0, cs0 with
      | '-', t => (-1, t)
      | '+', t => (1, t)
      | c, t => (1, c :: t)
    let ip := signAndDigits.2.takeWhile Char.isDigit
    let rest := signAndDigits.2.dropWhile Char.isDigit
    if ip.isEmpty then none
    else
      match rest with
      | [] => some (signAndDigits.1 * digitsToNat ip)
      | '.' :: f =>
        if f.all (fun c => c = '0') then some (signAndDigits.1 * digitsToNat ip)
        else none
      | _ => none

/-- `StringOrNumber = t.union([t.number, t.string])`. -/
def StringOrNumber : Value → DecodeResult := tUnion tNumber tString

/-- `NumericIdentifier`: a `StringOrNumber` that passes
`!isNaN(+n) && +n === parseInt(String(n), 10) && +n >= 0`, decoded to the
number; otherwise the failure `must be a positive integer`. -/
def NumericIdentifier : Value → DecodeResult := fun i =>
  match StringOrNumber i with
  | .err e => .err e
  | .ok w =>
    match (match w with
           | .num n => some n
           | .str s => jsIntString s
           | _ => none) with
    | some n =>
      if n ≥ 0 then .ok (.num n) else .err [some "must be a positive integer"]
    | none => .err [some "must be a positive integer"]

/-- `BooleanFromString`: `'true' | '1' | 'on'` decode to true,
`'false' | '0' | 'off'` to false. -/
def BooleanFromString : Value → DecodeResult := fun i =>
  match i with
  | .str s =>
    if s = "true" ∨ s = "1" ∨ s = "on" then .ok (.bool true)
    else if s = "false" ∨ s = "0" ∨ s = "off" then .ok (.bool false)
    else .err [some "must be a valid string boolean"]
  | _ => .err [none]

/-- `BooleanFromInt`: 0 or 1 decode to a boolean. -/
def BooleanFromInt : Value → DecodeResult := fun i =>
  match i with
  | .num n =>
    if n = 0 ∨ n = 1 then .ok (.bool (n = 1))
    else .err [some "must be a valid integer boolean"]
  | _ => .err [none]

/-- `BooleanIdentifier`: `t.boolean`, else `BooleanFromString`, else
`BooleanFromInt`, else the combined failure message. -/
def BooleanIdentifier : Value → DecodeResult := fun i =>
  match i with
  | .bool b => .ok (.bool b)
  | _ =>
    match BooleanFromString i with
    | .ok v => .ok v
    | .err _ =>
      match BooleanFromInt i with
      | .ok v => .ok v
      | .err _ =>
        .err [some "must be a valid boolean identifier of type boolean, string, or integer"]

/-- `ShortString`: a string of at most 255 characters. -/
def ShortString : Value → DecodeResult := fun i =>
  match i with
  | .str s =>
    if s.length ≤ 255 then .ok (.str s)
    else .err [some "must be at most 255 chars long"]
  | _ => .err [none]

/-- A docker-name character: `[a-zA-Z0-9_.-]`. -/
def isDockerNameChar (c : Char) : Bool :=
  c.isAlpha ∨ c.isDigit ∨ c = '_' ∨ c = '.' ∨ c = '-'

/-- `DOCKER_NAME_REGEX = /^[a-zA-Z0-9][a-zA-Z0-9_.-]*$/`. -/
def dockerNameOk (s : String) : Bool :=
  match s.toList with
  | [] => false
  | c :: rest => (c.isAlpha ∨ c.isDigit) ∧ rest.all isDockerNameChar

/-- `DockerName`: a `ShortString` matching the docker-name regex.  (The
default branch after a successful `ShortString` is unreachable: that codec
only succeeds on strings.) -/
def DockerName : Value → DecodeResult := fun i =>
  match ShortString i with
  | .err e => .err e
  | .ok w =>
    match w with
    | .str s =>
      if dockerNameOk s then .ok (.str s)
      else .err [some "only \"[a-zA-Z0-9][a-zA-Z0-9_.-]\" are allowed"]
    | _ => .err [none]

/-! ### Host-config codecs (src/src/device-api/types.ts) -/

/-- io-ts `t.partial(props)` over our values: a non-object fails with one
message-less error; each declared property that is present (not
`undefined`) and fails to validate contributes all its errors; on success
the input object is returned (each embedded property validator returns its
input unchanged on success, as the io-ts originals here do). -/
def tOptionalProps (props : List (String × (Value → DecodeResult))) :
    Value → DecodeResult := fun v =>
  match v with
  | .obj fields =>
    let errs := props.foldl (fun acc p =>
      match objGet fields p.1 with
      | .undefined => acc
      | av =>
        match p.2 av with
        | .ok _ => acc
        | .err es => acc ++ es) []
    if errs.isEmpty then .ok (.obj fields) else .err errs
  | _ => .err [none]

/-- The failure message of `RedsocksTypes` with the enum's value list
interpolated. -/
def redsocksTypesMessage : String :=
  "Invalid redsocks proxy type, must be one of socks4, socks5, http-connect, http-relay"

/-- Modelled from the spec: `fromEnum` is imported from `src/types/basic`
but is not among the extracted sources; per its use it builds a codec
accepting exactly the enum's string values and otherwise failing with the
supplied message over the value list.  `RedsocksTypes` accepts socks4,
socks5, http-connect and http-relay. -/
def RedsocksTypes : Value → DecodeResult := fun i =>
  match i with
  | .str s =>
    if s = "socks4" ∨ s = "socks5" ∨ s = "http-connect" ∨ s = "http-relay"
    then .ok (.str s)
    else .err [some redsocksTypesMessage]
  | _ => .err [some redsocksTypesMessage]

/-- `NoProxyArray`: `t.array(t.string)` whose failures are folded into the
single message below. -/
def NoProxyArray : Value → DecodeResult := fun i =>
  match i with
  | .arr xs =>
    if xs.all (fun x => match x with | .str _ => true | _ => false)
    then .ok (.arr xs)
    else .err [some "noProxy field must be an array of addresses"]
  | _ => .err [some "noProxy field must be an array of addresses"]

/-- `disallowedHostConfigPatchFields = ['local_ip', 'local_port']`. -/
def disallowedHostConfigPatchFields : List String := ["local_ip", "local_port"]

/-- `HostConfigProxyT = t.partial(type, noProxy)`. -/
def HostConfigProxyT : Value → DecodeResult :=
  tOptionalProps [("type", RedsocksTypes), ("noProxy", NoProxyArray)]

/-- `HostConfigProxy`: `HostConfigProxyT` chained with the rejection of
blacklisted proxy fields. -/
def HostConfigProxy : Value → DecodeResult := fun i =>
  match HostConfigProxyT i with
  | .err e => .err e
  | .ok w =>
    let keys := match w with | .obj fields => fields.map Prod.fst | _ => []
    let blacklistedFields :=
      keys.filter (fun k => disallowedHostConfigPatchFields.contains k)
    if blacklistedFields.length > 0 then
      .err [some ("Invalid proxy field(s): " ++
        String.intercalate ", " blacklistedFields)]
    else .ok w

/-- `HostConfig = t.partial(proxy)`. -/
def HostConfig : Value → DecodeResult :=
  tOptionalProps [("proxy", HostConfigProxy)]

/-! ## Validation middleware (src/src/device-api/middleware/validation.ts) -/

/-- A response body or warning payload: a plain string, or the
`(status, message)` object some endpoints send (`failed` objects). -/
inductive ErrMsg where
  | plain (s : String)
  | failed (status : String) (message : String)
deriving DecidableEq, Repr

/-- JavaScript truthiness of a message (`if (schemaWarnMessage)`): the
empty string is falsy, every other string and every object is truthy. -/
def errMsgTruthy : ErrMsg → Bool
  | .plain s => s ≠ ""
  | .failed _ _ => true

/-- A field's source location within the request. -/
inductive Location where
  | body
  | params
  | query
deriving DecidableEq, Repr

/-- The request as this middleware sees it: method, path, the three value
bags, and the attached `auth` scopes.  `req.auth.isScoped(resources)` is
the predicate of spec §6, built from `isScoped` (§4.1) over these scopes
(the auth middleware that attaches it is an external collaborator). -/
structure AuthorizedRequest where
  method : String
  path : String
  body : List (String × Value)
  query : List (String × Value)
  params : List (String × Value)
  auth : List Scope

/-- `req[location][name]` (an absent property reads as `undefined`). -/
def reqGet (req : AuthorizedRequest) : Location → String → Value
  | .body, n => objGet req.body n
  | .params, n => objGet req.params n
  | .query, n => objGet req.query n

/-- `RequiredValidationT`. -/
structure RequiredValidationT where
  name : String
  location : Location
  type : Value → DecodeResult
  warn : Bool
  getErrorCode : AuthorizedRequest → Nat
  getMessage : AuthorizedRequest → ErrMsg

/-- `OptionalValidationT` (`warn` and `getMessage` come from
`Partial<WithMessageT>`; an absent `warn` is falsy, modelled as `false`;
`getDefault` holds the awaited default value when the provider exists). -/
structure OptionalValidationT where
  name : String
  location : Location
  type : Value → DecodeResult
  warn : Bool
  getMessage : Option (AuthorizedRequest → ErrMsg)
  getDefault : Option Value
  shouldDefault : Option (Value → Bool)

/-- `ValidationT = RequiredValidationT | OptionalValidationT`. -/
inductive ValidationT where
  | required (r : RequiredValidationT)
  | optional (o : OptionalValidationT)

/-- `schema.name`. -/
def vName : ValidationT → String
  | .required r => r.name
  | .optional o => o.name

/-- `schema.warn` (absent on an optional schema reads as falsy). -/
def vWarn : ValidationT → Bool
  | .required r => r.warn
  | .optional o => o.warn

/-- `schema.getMessage`, when present. -/
def vGetMessage : ValidationT → Option (AuthorizedRequest → ErrMsg)
  | .required r => some r.getMessage
  | .optional o => o.getMessage

/-- One entry of a route's check list:
`RequiredValidationT | OneOfRequiredValidationT | OptionalValidationT`. -/
inductive InputCheck where
  | schema (v : ValidationT)
  | oneOf (schemas : List RequiredValidationT)

/-- One route's schema entry: the `required` checks (single schemas or
oneOf groups) and the `optional` schemas, in declaration order. -/
structure RouteSchema where
  required : List InputCheck := []
  optional : List OptionalValidationT := []

/-- `getDecodedInput(req, schema)`: wrap the type with `withDefault` when
an optional schema carries a default provider (an absent `shouldDefault`
falls back to the `isNullOrUndefined` default parameter), then decode the
raw input, returning the result paired with its schema. -/
def getDecodedInput (req : AuthorizedRequest) :
    ValidationT → DecodeResult × ValidationT
  | .required r => (r.type (reqGet req r.location r.name), .required r)
  | .optional o =>
    let ty :=
      match o.getDefault with
      | some d =>
        match o.shouldDefault with
        | some sd => withDefault o.type d sd
        | none => withDefault o.type d
      | none => o.type
    (ty (reqGet req o.location o.name), .optional o)

/-- The loop inside `getFirstValidSchema`: the first alternative that
decodes to a Right, if any. -/
def firstRightDecoded (req : AuthorizedRequest) :
    List RequiredValidationT → Option (DecodeResult × ValidationT)
  | [] => none
  | s :: rest =>
    match (getDecodedInput req (.required s)).1 with
    | .ok _ => some (getDecodedInput req (.required s))
    | .err _ => firstRightDecoded req rest

/-- `getFirstValidSchema(req, schema)`: the decoded input of the first
alternative that decodes to a Right; if none does, the first alternative's
(Left) decoded input.  An empty group yields `none`, modelling the
`undefined` the source would return and later crash on. -/
def getFirstValidSchema (req : AuthorizedRequest)
    (schemas : List RequiredValidationT) :
    Option (DecodeResult × ValidationT) :=
  match firstRightDecoded req schemas with
  | some di => some di
  | none =>
    match schemas with
    | [] => none
    | s0 :: _ => some (getDecodedInput req (.required s0))

/-- `getDecodedFromSchemas(req, schemas)`. -/
def getDecodedFromSchemas (req : AuthorizedRequest)
    (schemas : List InputCheck) : List (Option (DecodeResult × ValidationT)) :=
  schemas.map (fun sch =>
    match sch with
    | .oneOf l => getFirstValidSchema req l
    | .schema v => some (getDecodedInput req v))

/-- `getMessagesFromLefts(decoded)`: the de-duplicated truthy `message`
fields of the Left's errors, in insertion order (a JavaScript Set
preserves it). -/
def getMessagesFromLefts (msgs : List (Option String)) : List String :=
  msgs.foldl (fun acc m =>
    match m with
    | some s => if s ≠ "" ∧ ¬ acc.contains s then acc ++ [s] else acc
    | none => acc) []

/-- `handleLeft(req, res, schema, decoded, warnFn)`, as the pair of the
messages passed to `warnFn` and the response written, if any: a `warn`
schema logs the de-duplicated decode messages (or, when there are none and
the schema has a truthy static message, that message) and writes nothing;
a required schema writes its computed status code and message; an optional
schema without `warn` does nothing. -/
def handleLeft (req : AuthorizedRequest) (schema : ValidationT)
    (errs : List (Option String)) : List ErrMsg × Option (Nat × ErrMsg) :=
  if vWarn schema then
    let warnMessages := getMessagesFromLefts errs
    let out : List ErrMsg :=
      if warnMessages.isEmpty then
        match vGetMessage schema with
        | some f => if errMsgTruthy (f req) then [f req] else []
        | none => []
      else warnMessages.map ErrMsg.plain
    (out, none)
  else
    match schema with
    | .required r => ([], some (r.getErrorCode req, r.getMessage req))
    | .optional _ => ([], none)

/-- The observable outcome of one middleware run: the validated-value bag
(`res.locals`), the messages sent to the warn sink (`log.warn`), the
response written (status and body), whether `next()` was invoked, and
whether the run crashed (destructuring `undefined`). -/
structure MidResult where
  locals : List (String × Value)
  warnings : List ErrMsg
  response : Option (Nat × ErrMsg)
  calledNext : Bool
  crashed : Bool

/-- `{ apps: [res.locals.appId] }` as the resource set handed to
`isScoped`: a decoded appId is always a number; a non-number in that slot
would compare unequal to every numeric scope appId under strict equality,
which the empty list models. -/
def valueAppList : Value → List Int
  | .num n => [n]
  | _ => []

/-- The code after the decode loop:
`if (res.locals.appId && !req.auth.isScoped({ apps: [res.locals.appId] }))`
has an empty branch body (only the comment saying an auth error message
should be returned), and the following `return next()` is commented out,
so both paths execute `return res.status(200).send('OK')`. -/
def finishRequest (req : AuthorizedRequest) (locals : List (String × Value))
    (warns : List ErrMsg) : MidResult :=
  if jsTruthy (objGet locals "appId") ∧
      ¬ isScoped ⟨some (valueAppList (objGet locals "appId"))⟩ req.auth = true
  then
    { locals := locals, warnings := warns,
      response := some (200, .plain "OK"), calledNext := false, crashed := false }
  else
    { locals := locals, warnings := warns,
      response := some (200, .plain "OK"), calledNext := false, crashed := false }

/-- The middleware's application loop over the decoded inputs, in declared
order: a Right stores its value under the schema name in `res.locals`
(`handleRight`); a Left goes through `handleLeft`, and the middleware
returns as soon as a response has been written (`res.writableEnded`);
when the loop completes, control falls through to `finishRequest`. -/
def applyDecoded (req : AuthorizedRequest) :
    List (Option (DecodeResult × ValidationT)) →
    List (String × Value) → List ErrMsg → MidResult
  | [], locals, warns => finishRequest req locals warns
  | none :: _, locals, warns =>
    { locals := locals, warnings := warns, response := none,
      calledNext := false, crashed := true }
  | some (decoded, schema) :: rest, locals, warns =>
    match decoded with
    | .ok v => applyDecoded req rest (objSet locals (vName schema) v) warns
    | .err errs =>
      match handleLeft req schema errs with
      | (ws, some resp) =>
        { locals := locals, warnings := warns ++ ws,
          response := some resp, calledNext := false, crashed := false }
      | (ws, none) => applyDecoded req rest locals (warns ++ ws)

/-! ### Route normalization and the schema registry -/

/-- The four literal forms the lookbehind
`(?<=\/v[1-2]\/(?:apps|applications)\/)` can match. -/
def appIdPrefixes : List (List Char) :=
  ["/v1/apps/".toList, "/v2/apps/".toList,
   "/v1/applications/".toList, "/v2/applications/".toList]

/-- `[a-zA-Z0-9]`. -/
def isAlnum (c : Char) : Bool := c.isAlpha ∨ c.isDigit

/-- Scan for the first match of
`(?<=\/v[1-2]\/(?:apps|applications)\/)([a-zA-Z0-9]+)`: the first position
whose preceding text ends in one of the four prefixes and which starts an
alphanumeric run.  Returns (text before the run, the run, text after). -/
def splitAppIdGo : List Char → List Char →
    Option (List Char × List Char × List Char)
  | _, [] => none
  | pre, c :: rest =>
    if appIdPrefixes.any (fun p => p.isSuffixOf pre) ∧ isAlnum c then
      some (pre, (c :: rest).takeWhile isAlnum, (c :: rest).dropWhile isAlnum)
    else splitAppIdGo (pre ++ [c]) rest

/-- The appId match of `appIdRegex` in a path, as strings. -/
def splitAppId (path : String) : Option (String × String × String) :=
  (splitAppIdGo [] path.toList).map
    (fun t => (t.1.asString, t.2.1.asString, t.2.2.asString))

/-- `getRouteMethodAndPath(req)`: the string `METHOD path` with the
matched appId segment replaced by `:appId`, the concrete value being
recovered into `req.params.appId` — the source mutates the request, the
model returns the updated one. -/
def getRouteMethodAndPath (req : AuthorizedRequest) :
    String × AuthorizedRequest :=
  match splitAppId req.path with
  | some (pre, idv, post) =>
    (req.method ++ " " ++ pre ++ ":appId" ++ post,
     { req with params := objSet req.params "appId" (.str idv) })
  | none => (req.method ++ " " ++ req.path, req)

/-- Modelled from the spec: the `device-api/messages` module is not among
the extracted sources; the exact texts are immaterial to every claim —
only their identity as the schema-computed messages matters. -/
def missingAppIdInputErrorMessage : String :=
  "Missing app id"

/-- Modelled from the spec (see `missingAppIdInputErrorMessage`). -/
def v2ServiceEndpointInputErrorMessage : String :=
  "Request must include imageId or serviceName"

/-- Modelled from the spec (see `missingAppIdInputErrorMessage`). -/
def serviceNotFoundMessage : String :=
  "Service not found"

/-- Modelled from the spec (see `missingAppIdInputErrorMessage`). -/
def serviceNameNotFoundMessage : String :=
  "serviceName not found"

/-- `path.includes(sub)`. -/
def strIncludes (s sub : String) : Bool := (s.splitOn sub).length > 1

/-- `appIdSchema`: required `appId` from the route params, decoded by
`NumericIdentifier`; v1 paths get a plain-string message, v2 paths a
failed-status object. -/
def appIdSchema : RequiredValidationT :=
  { name := "appId", location := .params, type := NumericIdentifier,
    warn := false,
    getErrorCode := fun _ => 400,
    getMessage := fun req =>
      if strIncludes req.path "v1" then .plain missingAppIdInputErrorMessage
      else .failed "failed" missingAppIdInputErrorMessage }

/-- `(val) => val !== true` (the `shouldDefault` of `forceSchema` and of
the journal-logs boolean fields): strict inequality against `true`. -/
def notStrictTrue : Value → Bool
  | .bool true => false
  | _ => true

/-- `forceSchema`: optional `force` from the body, decoded by
`BooleanIdentifier`, defaulting to the `lockOverride` config value
whenever the raw value is not strictly `true`.  `config.get('lockOverride')`
is an external configuration read; its awaited value is this parameter. -/
def forceSchema (lockOverride : Value) : OptionalValidationT :=
  { name := "force", location := .body, type := BooleanIdentifier,
    warn := false, getMessage := none,
    getDefault := some lockOverride,
    shouldDefault := some notStrictTrue }

/-- `getInvalidServiceOrImageErrorCode`: 523 when the body has neither a
truthy `imageId` nor a truthy `serviceName`, else 404. -/
def getInvalidServiceOrImageErrorCode (req : AuthorizedRequest) : Nat :=
  if ¬ jsTruthy (objGet req.body "imageId") = true ∧
      ¬ jsTruthy (objGet req.body "serviceName") = true
  then 523 else 404

/-- `getInvalidServiceOrImageMessage`. -/
def getInvalidServiceOrImageMessage (req : AuthorizedRequest) : ErrMsg :=
  if ¬ jsTruthy (objGet req.body "imageId") = true ∧
      ¬ jsTruthy (objGet req.body "serviceName") = true
  then .failed "failed" v2ServiceEndpointInputErrorMessage
  else .plain serviceNotFoundMessage

/-- `serviceNameOrImageIdSchema`: the oneOf group trying `imageId` (a
`NumericIdentifier`) first, then `serviceName` (a `DockerName`). -/
def serviceNameOrImageIdSchema : List RequiredValidationT :=
  [{ name := "imageId", location := .body, type := NumericIdentifier,
     warn := false,
     getErrorCode := getInvalidServiceOrImageErrorCode,
     getMessage := getInvalidServiceOrImageMessage },
   { name := "serviceName", location := .body, type := DockerName,
     warn := false,
     getErrorCode := getInvalidServiceOrImageErrorCode,
     getMessage := getInvalidServiceOrImageMessage }]

/-- The two alternatives of the `GET /v2/containerId` oneOf group. -/
def containerIdAlternatives : List RequiredValidationT :=
  [{ name := "serviceName", location := .query, type := DockerName,
     warn := false,
     getErrorCode := fun _ => 503,
     getMessage := fun _ => .failed "failed" serviceNameNotFoundMessage },
   { name := "service", location := .query, type := DockerName,
     warn := false,
     getErrorCode := fun _ => 503,
     getMessage := fun _ => .failed "failed" serviceNameNotFoundMessage }]

/-- The `shouldDefault` of the journal-logs `count` field:
`isNaN(+val) || +val !== parseInt(val.toString(), 10) || +val <= 0`.
On a number this is `n <= 0`; on a string the first two disjuncts are
exactly the `jsIntString` test.  Every other shape defaults: `undefined`
is NaN under unary plus; booleans and composites fail the
`+val === parseInt(val.toString(), 10)` comparison except for
single-element numeric arrays (not representable as journal-log counts in
practice), and `null.toString()` throws in JavaScript — the model
totalises these cases to `true`. -/
def countShouldDefault : Value → Bool
  | .num n => n ≤ 0
  | .str s =>
    match jsIntString s with
    | some n => n ≤ 0
    | none => true
  | _ => true

/-- The `unit` schema of `POST /v2/journal-logs`: an optional field with a
default provider and no default predicate. -/
def journalUnitSchema : OptionalValidationT :=
  { name := "unit", location := .body, type := tUnion tString tNull,
    warn := false, getMessage := none,
    shouldDefault := none, getDefault := some .null }

/-- The `optional` entries of `POST /v2/journal-logs`. -/
def journalLogsOptional : List OptionalValidationT :=
  [{ name := "all", location := .body, type := tBoolean,
     warn := false, getMessage := none,
     shouldDefault := some notStrictTrue, getDefault := some (.bool false) },
   { name := "follow", location := .body, type := tBoolean,
     warn := false, getMessage := none,
     shouldDefault := some notStrictTrue, getDefault := some (.bool false) },
   { name := "count", location := .body, type := tUnion tNumber tNull,
     warn := false, getMessage := none,
     shouldDefault := some countShouldDefault, getDefault := some .null },
   journalUnitSchema,
   { name := "format", location := .body, type := tString,
     warn := false, getMessage := none,
     shouldDefault := none, getDefault := some (.str "short") },
   { name := "containerId", location := .body, type := tUnion tString tNull,
     warn := false, getMessage := none,
     shouldDefault := none, getDefault := some .null }]

/-- The optional `network` schema of `PATCH /v1/device/host-config`:
warn-only validation against `HostConfig`. -/
def networkWarnSchema : OptionalValidationT :=
  { name := "network", location := .body, type := HostConfig,
    warn := true,
    getMessage := some (fun _ => .plain "Key 'network' must exist in PATCH body"),
    getDefault := none, shouldDefault := none }

/-- The `POST /v1/restart` variant of `appIdSchema`: appId is read from
the body on this legacy endpoint. -/
def restartAppIdSchema : RequiredValidationT :=
  { appIdSchema with location := .body }

/-- The `POST /v1/purge` variant of `appIdSchema`: body location and a
slightly different legacy message. -/
def purgeAppIdSchema : RequiredValidationT :=
  { appIdSchema with
    location := .body,
    getMessage := fun _ => .plain "Invalid or missing appId" }

/-- The `GET /v2/applications/:appId/state` variant of `appIdSchema`: its
message interpolates the raw route param. -/
def stateAppIdSchema : RequiredValidationT :=
  { appIdSchema with
    getMessage := fun req => .failed "failed"
      ("Invalid application ID: " ++
        (match objGet req.params "appId" with
         | .str s => s
         | .num n => toString n
         | _ => "")) }

/-- `inputValidationSchema`: the static registry from route key
`METHOD /normalized/path` to its schema entry, in declaration order. -/
def inputValidationSchema (lockOverride : Value) :
    List (String × RouteSchema) :=
  [("POST /v1/restart",
    { required := [.schema (.required restartAppIdSchema)],
      optional := [forceSchema lockOverride] }),
   ("POST /v1/apps/:appId/stop",
    { required := [.schema (.required appIdSchema)],
      optional := [forceSchema lockOverride] }),
   ("POST /v1/apps/:appId/start",
    { required := [.schema (.required appIdSchema)],
      optional := [forceSchema lockOverride] }),
   ("POST /v1/reboot", { optional := [forceSchema lockOverride] }),
   ("POST /v1/shutdown", { optional := [forceSchema lockOverride] }),
   ("GET /v1/apps/:appId",
    { required := [.schema (.required appIdSchema)] }),
   ("POST /v1/purge",
    { required := [.schema (.required purgeAppIdSchema)],
      optional := [forceSchema lockOverride] }),
   ("POST /v1/update", { optional := [forceSchema lockOverride] }),
   ("PATCH /v1/device/host-config", { optional := [networkWarnSchema] }),
   ("POST /v2/applications/:appId/purge",
    { required := [.schema (.required appIdSchema)],
      optional := [forceSchema lockOverride] }),
   ("POST /v2/applications/:appId/restart-service",
    { required := [.schema (.required appIdSchema),
                   .oneOf serviceNameOrImageIdSchema],
      optional := [forceSchema lockOverride] }),
   ("POST /v2/applications/:appId/stop-service",
    { required := [.schema (.required appIdSchema),
                   .oneOf serviceNameOrImageIdSchema],
      optional := [forceSchema lockOverride] }),
   ("POST /v2/applications/:appId/start-service",
    { required := [.schema (.required appIdSchema),
                   .oneOf serviceNameOrImageIdSchema],
      optional := [forceSchema lockOverride] }),
   ("POST /v2/applications/:appId/restart",
    { required := [.schema (.required appIdSchema)],
      optional := [forceSchema lockOverride] }),
   ("GET /v2/applications/:appId/state",
    { required := [.schema (.required stateAppIdSchema)] }),
   ("POST /v2/local/target-state", { optional := [forceSchema lockOverride] }),
   ("GET /v2/containerId",
    { required := [.oneOf containerIdAlternatives] }),
   ("POST /v2/journal-logs", { optional := journalLogsOptional })]

/-- `inputValidator`: normalize the route, look up its schema entry (no
entry: pass straight through to `next()`), decode all required-then-
optional checks, and apply the results in declared order. -/
def inputValidator (lockOverride : Value) (req0 : AuthorizedRequest) :
    MidResult :=
  let mp := getRouteMethodAndPath req0
  match assocLookup (inputValidationSchema lockOverride) mp.1 with
  | none =>
    { locals := [], warnings := [], response := none,
      calledNext := true, crashed := false }
  | some vs =>
    let schemas := vs.required ++
      vs.optional.map (fun o => InputCheck.schema (.optional o))
    applyDecoded mp.2 (getDecodedFromSchemas mp.2 schemas) [] []

/-! ### Engine lemmas: the application loop in declared order -/

/-- A decoded entry lets the loop continue: a Right, or a Left whose
`handleLeft` writes no response. -/
def stepContinues (req : AuthorizedRequest) :
    Option (DecodeResult × ValidationT) → Bool
  | none => false
  | some (.ok _, _) => true
  | some (.err errs, schema) => ((handleLeft req schema errs).2).isNone

/-- The `res.locals` update of one decoded entry. -/
def applyStepLocals (locals : List (String × Value)) :
    Option (DecodeResult × ValidationT) → List (String × Value)
  | some (.ok v, schema) => objSet locals (vName schema) v
  | _ => locals

/-- The warnings one decoded entry emits. -/
def stepWarnings (req : AuthorizedRequest) :
    Option (DecodeResult × ValidationT) → List ErrMsg
  | some (.err errs, schema) => (handleLeft req schema errs).1
  | _ => []

/-- `res.locals` after applying a prefix of decoded entries. -/
def prefixLocals (req : AuthorizedRequest) :
    List (Option (DecodeResult × ValidationT)) →
    List (String × Value) → List (String × Value)
  | [], locals => locals
  | x :: t, locals => prefixLocals req t (applyStepLocals locals x)

/-- Warnings accumulated over a prefix of decoded entries. -/
def prefixWarnings (req : AuthorizedRequest) :
    List (Option (DecodeResult × ValidationT)) → List ErrMsg
  | [] => []
  | x :: t => stepWarnings req x ++ prefixWarnings req t

theorem applyDecoded_append_of_continues (req : AuthorizedRequest)
    (l1 rest : List (Option (DecodeResult × ValidationT)))
    (locals : List (String × Value)) (warns : List ErrMsg)
    (h : ∀ x ∈ l1, stepContinues req x = true) :
    applyDecoded req (l1 ++ rest) locals warns =
      applyDecoded req rest (prefixLocals req l1 locals)
        (warns ++ prefixWarnings req l1) := by
  induction l1 generalizing locals warns with
  | nil => simp [prefixLocals, prefixWarnings]
  | cons x t ih =>
    have hx := h x (List.mem_cons_self _ _)
    have ht : ∀ y ∈ t, stepContinues req y = true :=
      fun y hy => h y (List.mem_cons_of_mem _ hy)
    cases x with
    | none => simp [stepContinues] at hx
    | some di =>
      obtain ⟨decoded, schema⟩ := di
      cases decoded with
      | ok v =>
        simp only [List.cons_append, applyDecoded, List.append_eq]
        rw [ih _ _ ht]
        simp [prefixLocals, prefixWarnings, stepWarnings, applyStepLocals]
      | err errs =>
        simp only [stepContinues] at hx
        cases hh : handleLeft req schema errs with
        | mk ws resp =>
          rw [hh] at hx
          simp only [Option.isNone_iff_eq_none] at hx
          subst hx
          simp only [List.cons_append, applyDecoded, hh, List.append_eq]
          rw [ih _ _ ht]
          simp [prefixLocals, prefixWarnings, stepWarnings, applyStepLocals,
            hh]

/-- C7: Whenever a required check (with the rejection semantics, i.e. its
`warn` flag unset, as every registered required schema has) fails to
decode and every check before it let the loop continue, the middleware
responds with exactly the status code and message computed by that
schema's `getErrorCode` and `getMessage` from the request, `next()` is
not invoked, and no check declared after it is applied: the final locals
and warnings are exactly those accumulated before it, independent of the
remaining checks — no value stored, no warning emitted, no further
rejection from them. -/
theorem required_failure_rejects_with_schema_response
    (req : AuthorizedRequest)
    (l1 : List (Option (DecodeResult × ValidationT)))
    (r : RequiredValidationT) (errs : List (Option String))
    (l2 : List (Option (DecodeResult × ValidationT)))
    (hcont : ∀ x ∈ l1, stepContinues req x = true)
    (hw : r.warn = false) :
    applyDecoded req (l1 ++ some (.err errs, .required r) :: l2) [] [] =
      { locals := prefixLocals req l1 [],
        warnings := prefixWarnings req l1,
        response := some (r.getErrorCode req, r.getMessage req),
        calledNext := false, crashed := false } := by
  rw [applyDecoded_append_of_continues req l1 _ [] [] hcont]
  simp only [applyDecoded, handleLeft, vWarn, hw, Bool.false_eq_true,
    if_false, List.nil_append]
  simp

/-- A concrete request for witnesses: nothing in it matters beyond being a
well-formed request value. -/
def witnessReq : AuthorizedRequest :=
  { method := "GET", path := "/x", body := [], query := [], params := [],
    auth := [] }

/-- Concrete optional schema named `a` for witnesses. -/
def witnessOptA : OptionalValidationT :=
  { name := "a", location := .body, type := tNumber, warn := false,
    getMessage := none, getDefault := none, shouldDefault := none }

/-- Concrete optional schema named `c` for witnesses. -/
def witnessOptC : OptionalValidationT :=
  { name := "c", location := .body, type := tNumber, warn := false,
    getMessage := none, getDefault := none, shouldDefault := none }

/-- Concrete required schema named `b` for witnesses, rejecting with a
418 status and a fixed message. -/
def witnessReqB : RequiredValidationT :=
  { name := "b", location := .body, type := tNumber, warn := false,
    getErrorCode := fun _ => 418, getMessage := fun _ => .plain "nope" }

/-- Witness for C7 at a concrete input: one passing optional check before
a failing required check, one check after it; the response is the failing
schema's 418 status and message, the later check contributes nothing. -/
theorem required_failure_rejects_with_schema_response_witness :
    (∀ x ∈ [some (DecodeResult.ok (.num 5), ValidationT.optional witnessOptA)],
      stepContinues witnessReq x = true) ∧
    applyDecoded witnessReq
      ([some (DecodeResult.ok (.num 5), ValidationT.optional witnessOptA)] ++
        some (DecodeResult.err [some "bad"],
          ValidationT.required witnessReqB) ::
        [some (DecodeResult.ok (.num 9), ValidationT.optional witnessOptC)])
      [] [] =
      { locals := [("a", .num 5)], warnings := [],
        response := some (418, .plain "nope"),
        calledNext := false, crashed := false } := by
  refine ⟨?_, ?_⟩
  · intro x hx
    simp at hx
    subst hx
    rfl
  · rw [required_failure_rejects_with_schema_response witnessReq _
      witnessReqB [some "bad"] _ ?_ rfl]
    · rfl
    · intro x hx
      simp at hx
      subst hx
      rfl

/-- C9: For every request in which an optional field without the warn flag
fails to decode, that check is applied without any effect: no response is
written, the validated-value bag and the warning log are untouched (in
particular no entry for the field's name is created or modified), the
request itself is never mutated by the loop, and evaluation continues with
the next declared check. -/
theorem optional_failure_without_warn_is_skipped (req : AuthorizedRequest)
    (o : OptionalValidationT) (errs : List (Option String))
    (rest : List (Option (DecodeResult × ValidationT)))
    (locals : List (String × Value)) (warns : List ErrMsg)
    (hw : o.warn = false) :
    applyDecoded req (some (.err errs, .optional o) :: rest) locals warns =
      applyDecoded req rest locals warns := by
  simp only [applyDecoded, handleLeft, vWarn, hw, Bool.false_eq_true,
    if_false]
  simp

/-- Witness for C9 at a concrete input: the failing non-warn optional
check contributes nothing and the loop proceeds to its end. -/
theorem optional_failure_without_warn_is_skipped_witness :
    witnessOptA.warn = false ∧
    applyDecoded witnessReq
      [some (DecodeResult.err [some "bad"], ValidationT.optional witnessOptA)]
      [] [] = applyDecoded witnessReq [] [] [] :=
  ⟨rfl, optional_failure_without_warn_is_skipped witnessReq witnessOptA
    [some "bad"] [] [] [] rfl⟩

/-- C8 (amended): For every request in which an optional warn-flagged
field fails to decode, the middleware writes no response and continues
with the next check, and it logs one warning per distinct de-duplicated
decode-failure message — when there are none and the schema's static
message is truthy, exactly that one message. -/
theorem warn_failure_logs_messages_and_continues (req : AuthorizedRequest)
    (o : OptionalValidationT) (errs : List (Option String))
    (rest : List (Option (DecodeResult × ValidationT)))
    (locals : List (String × Value)) (warns : List ErrMsg)
    (hw : o.warn = true) :
    applyDecoded req (some (.err errs, .optional o) :: rest) locals warns =
      applyDecoded req rest locals
        (warns ++ (handleLeft req (.optional o) errs).1) ∧
    ((getMessagesFromLefts errs).isEmpty = false →
      (handleLeft req (.optional o) errs).1 =
        (getMessagesFromLefts errs).map ErrMsg.plain) ∧
    (∀ f, (getMessagesFromLefts errs).isEmpty = true →
      o.getMessage = some f → errMsgTruthy (f req) = true →
      (handleLeft req (.optional o) errs).1 = [f req]) ∧
    (handleLeft req (.optional o) errs).2 = none := by
  have hl : handleLeft req (.optional o) errs =
      ((if (getMessagesFromLefts errs).isEmpty then
          match o.getMessage with
          | some f => if errMsgTruthy (f req) then [f req] else []
          | none => []
        else (getMessagesFromLefts errs).map ErrMsg.plain), none) := by
    simp [handleLeft, vWarn, vGetMessage, hw]
  refine ⟨?_, ?_, ?_, by rw [hl]⟩
  · simp only [applyDecoded, hl]
  · intro hne
    rw [hl]
    simp [hne]
  · intro f he hf ht
    rw [hl]
    simp [he, hf, ht]

/-- The C8 counterexample input: `PATCH /v1/device/host-config` whose
`network.proxy` has an invalid `type` and an invalid `noProxy` — two
distinct decode-failure messages. -/
def hostConfigTwoErrorsRequest : AuthorizedRequest :=
  { method := "PATCH", path := "/v1/device/host-config",
    body := [("network", .obj [("proxy",
      .obj [("type", .str "socks6"), ("noProxy", .str "foo")])])],
    query := [], params := [], auth := [Scope.global] }

/-- C8 counterexample: on the request above, the warn-flagged `network`
field fails with two distinct messages and the middleware logs TWO
warnings, not exactly one; the request is still not rejected. -/
theorem warn_failure_two_warnings_counterexample :
    (inputValidator (.bool false) hostConfigTwoErrorsRequest).warnings =
      [.plain redsocksTypesMessage,
       .plain "noProxy field must be an array of addresses"] ∧
    (inputValidator (.bool false) hostConfigTwoErrorsRequest).warnings.length
      ≠ 1 ∧
    (inputValidator (.bool false) hostConfigTwoErrorsRequest).response =
      some (200, .plain "OK") := by
  have h : (inputValidator (.bool false) hostConfigTwoErrorsRequest).warnings =
      [.plain redsocksTypesMessage,
       .plain "noProxy field must be an array of addresses"] := rfl
  exact ⟨h, by rw [h]; decide, rfl⟩

/-- Witness for the amended C8 at a concrete input: a warn schema whose
failed decode carries two distinct messages logs both and the loop
continues. -/
theorem warn_failure_logs_messages_and_continues_witness :
    networkWarnSchema.warn = true ∧
    (applyDecoded witnessReq
      [some (DecodeResult.err [some "m1", some "m2", some "m1"],
        ValidationT.optional networkWarnSchema)] [] [] =
      applyDecoded witnessReq [] []
        ([] ++ (handleLeft witnessReq (.optional networkWarnSchema)
          [some "m1", some "m2", some "m1"]).1) ∧
    (handleLeft witnessReq (.optional networkWarnSchema)
      [some "m1", some "m2", some "m1"]).1 =
      [.plain "m1", .plain "m2"]) := by
  refine ⟨rfl, ?_, rfl⟩
  exact (warn_failure_logs_messages_and_continues witnessReq
    networkWarnSchema [some "m1", some "m2", some "m1"] [] [] [] rfl).1

/-! ### C6: oneOf groups -/

theorem firstRightDecoded_all_err (req : AuthorizedRequest)
    (l : List RequiredValidationT)
    (h : ∀ s' ∈ l, ∃ e, (getDecodedInput req (.required s')).1 = .err e) :
    firstRightDecoded req l = none := by
  induction l with
  | nil => rfl
  | cons s t ih =>
    obtain ⟨e, he⟩ := h s (List.mem_cons_self _ _)
    have ht := fun s' hs' => h s' (List.mem_cons_of_mem _ hs')
    simp only [firstRightDecoded, he]
    exact ih ht

theorem firstRightDecoded_prefix_err (req : AuthorizedRequest)
    (pre : List RequiredValidationT) (s : RequiredValidationT)
    (post : List RequiredValidationT)
    (hpre : ∀ s' ∈ pre, ∃ e, (getDecodedInput req (.required s')).1 = .err e)
    (hs : ∃ v, (getDecodedInput req (.required s)).1 = .ok v) :
    firstRightDecoded req (pre ++ s :: post) =
      some (getDecodedInput req (.required s)) := by
  induction pre with
  | nil =>
    obtain ⟨v, hv⟩ := hs
    simp only [List.nil_append, firstRightDecoded, hv]
  | cons p t ih =>
    obtain ⟨e, he⟩ := hpre p (List.mem_cons_self _ _)
    have ht := fun s' hs' => hpre s' (List.mem_cons_of_mem _ hs')
    simp only [List.cons_append, firstRightDecoded, he]
    exact ih ht

/-- C6: For every oneOf required group and every request, the alternatives
are decoded in their declared order: the first alternative that decodes
successfully determines the resulting decoded input (whose value the loop
stores under that alternative's name), and if every alternative fails,
the resulting decoded input is the first alternative's failure — whose
schema's status code and message then govern the rejection. -/
theorem oneOf_first_success_wins_else_first_failure
    (req : AuthorizedRequest) :
    (∀ (pre : List RequiredValidationT) (s : RequiredValidationT)
        (post : List RequiredValidationT),
      (∀ s' ∈ pre, ∃ e, (getDecodedInput req (.required s')).1 = .err e) →
      (∃ v, (getDecodedInput req (.required s)).1 = .ok v) →
      getFirstValidSchema req (pre ++ s :: post) =
        some (getDecodedInput req (.required s))) ∧
    (∀ (s0 : RequiredValidationT) (rest : List RequiredValidationT),
      (∀ s' ∈ s0 :: rest, ∃ e, (getDecodedInput req (.required s')).1 = .err e) →
      getFirstValidSchema req (s0 :: rest) =
        some (getDecodedInput req (.required s0))) := by
  constructor
  · intro pre s post hpre hs
    unfold getFirstValidSchema
    rw [firstRightDecoded_prefix_err req pre s post hpre hs]
  · intro s0 rest hall
    unfold getFirstValidSchema
    rw [firstRightDecoded_all_err req (s0 :: rest) hall]

/-- Concrete required schema that always decodes successfully, for the C6
witness. -/
def witnessReqOk : RequiredValidationT :=
  { name := "p", location := .body, type := fun _ => .ok (.num 1),
    warn := false, getErrorCode := fun _ => 400,
    getMessage := fun _ => .plain "m" }

/-- Witness for C6 at concrete inputs: a failing first alternative and a
succeeding second one resolve to the second's decode; two failing
alternatives resolve to the first's failure. -/
theorem oneOf_first_success_wins_else_first_failure_witness :
    (∀ s' ∈ [witnessReqB],
      ∃ e, (getDecodedInput witnessReq (.required s')).1 = .err e) ∧
    getFirstValidSchema witnessReq ([witnessReqB] ++ witnessReqOk :: []) =
      some (getDecodedInput witnessReq (.required witnessReqOk)) ∧
    getFirstValidSchema witnessReq [witnessReqB] =
      some (getDecodedInput witnessReq (.required witnessReqB)) := by
  have hfail : ∀ s' ∈ [witnessReqB],
      ∃ e, (getDecodedInput witnessReq (.required s')).1 = .err e := by
    intro s' hs'
    simp at hs'
    subst hs'
    exact ⟨[none], rfl⟩
  exact ⟨hfail,
    (oneOf_first_success_wins_else_first_failure witnessReq).1
      [witnessReqB] witnessReqOk [] hfail ⟨.num 1, rfl⟩,
    (oneOf_first_success_wins_else_first_failure witnessReq).2
      witnessReqB [] hfail⟩

/-! ### C10: defaulting -/

/-- C10: For every optional field schema that supplies a default-value
provider but omits the default predicate, the `withDefault` wrapper built
by `getDecodedInput` substitutes the default value exactly when the raw
input is null or undefined; every other raw value, including invalid ones,
is passed to the decoder as-is. -/
theorem withDefault_defaults_exactly_on_nullish (o : OptionalValidationT)
    (d : Value) (req : AuthorizedRequest)
    (hd : o.getDefault = some d) (hsd : o.shouldDefault = none) :
    ((reqGet req o.location o.name = .null ∨
        reqGet req o.location o.name = .undefined) →
      (getDecodedInput req (.optional o)).1 = o.type d) ∧
    (¬ (reqGet req o.location o.name = .null ∨
        reqGet req o.location o.name = .undefined) →
      (getDecodedInput req (.optional o)).1 =
        o.type (reqGet req o.location o.name)) := by
  have hnu : ∀ v : Value, isNullOrUndefined v = true ↔
      (v = .null ∨ v = .undefined) := by
    intro v
    cases v <;>
      simp [isNullOrUndefined, NullOrUndefined, tUnion, tUndefined, tNull]
  constructor
  · intro h
    simp only [getDecodedInput, hd, hsd, withDefault]
    rw [if_pos ((hnu _).mpr h)]
  · intro h
    have hf : isNullOrUndefined (reqGet req o.location o.name) = false := by
      rw [← Bool.not_eq_true]
      exact fun hc => h ((hnu _).mp hc)
    simp only [getDecodedInput, hd, hsd, withDefault]
    rw [if_neg (by rw [hf]; exact Bool.false_ne_true)]

/-- Witness for C10 at a concrete input: the `unit` journal-logs schema on
an empty body reads `undefined`, is replaced by the default `null`, and
decodes successfully; the defaulted decode equals decoding the default. -/
theorem withDefault_defaults_exactly_on_nullish_witness :
    journalUnitSchema.getDefault = some Value.null ∧
    journalUnitSchema.shouldDefault = none ∧
    ((reqGet witnessReq journalUnitSchema.location journalUnitSchema.name
        = .null ∨
      reqGet witnessReq journalUnitSchema.location journalUnitSchema.name
        = .undefined) →
      (getDecodedInput witnessReq (.optional journalUnitSchema)).1 =
        journalUnitSchema.type .null) ∧
    (getDecodedInput witnessReq (.optional journalUnitSchema)).1 =
      .ok .null :=
  ⟨rfl, rfl,
   (withDefault_defaults_exactly_on_nullish journalUnitSchema .null
     witnessReq rfl rfl).1,
   rfl⟩

/-! ### C1 and C2: the middleware's terminal behavior -/

/-- The C1 failing input: a fully valid `POST /v1/restart` request (body
appId 1234567 and force false) from a caller holding the global scope. -/
def validRestartRequest : AuthorizedRequest :=
  { method := "POST", path := "/v1/restart",
    body := [("appId", .num 1234567), ("force", .bool false)],
    query := [], params := [], auth := [Scope.global] }

/-- C1 (code-bug evidence): on a registered route where every check
decodes — the validated bag receives both appId and force — the middleware
does NOT yield control to the external handler: `return next()` is
commented out in the source, and the middleware itself answers the caller
with status 200 and body `OK`.  The claim, spec §4.4 step 5 and the
repository's own tests (which expect the stubbed route handler to run and
its errors to surface) all require `next()` to be invoked with no response
written by the middleware. -/
theorem inputValidator_validated_sends_ok_instead_of_next :
    inputValidator (.bool false) validRestartRequest =
      { locals := [("appId", .num 1234567), ("force", .bool false)],
        warnings := [], response := some (200, .plain "OK"),
        calledNext := false, crashed := false } := rfl

/-- The C2 failing input: `POST /v1/restart` for app 7654321 from a caller
whose only scope is app 1234567 — the decoded appId is out of scope. -/
def outOfScopeRestartRequest : AuthorizedRequest :=
  { method := "POST", path := "/v1/restart",
    body := [("appId", .num 7654321)],
    query := [], params := [], auth := [Scope.app 1234567] }

/-- C2 (code-bug evidence): the caller's scopes do not authorize the
decoded appId, yet the middleware denies nothing: the branch under
`if (res.locals.appId && !req.auth.isScoped(...))` is empty in the source,
so the pipeline answers 200 `OK` instead of an authorization error (the
repository's own test expects 401 here), and — because of the C1 slip —
the handler is not invoked either, so no later scope check can run. -/
theorem inputValidator_out_of_scope_not_denied :
    isScoped ⟨some [7654321]⟩ outOfScopeRestartRequest.auth = false ∧
    inputValidator (.bool false) outOfScopeRestartRequest =
      { locals := [("appId", .num 7654321), ("force", .bool false)],
        warnings := [], response := some (200, .plain "OK"),
        calledNext := false, crashed := false } :=
  ⟨rfl, rfl⟩

end Supervisor
